import Mathlib

/-!
# Verification of the mongo-perf-lab strategy execution and measurement engine

Shallow embedding of the core of `mongo-perf-lab` (Go): the plan analyzer
(`app/analyzer.go`), the parallel chunk coordinator (`app/read_v4.go`), the
single-threaded read loops (`read_v1` / `read_v5` / `read_bad`), the
execution-stats parsing shared by every strategy, and the memory-delta
computation.

Modelling conventions:
* A BSON explain document (`map[string]interface{}` in Go) is a finite
  key/value tree `BVal`.  Go type assertions such as `v.(int64)` become
  pattern matches on the `BVal` constructor; an absent map key yields `none`
  exactly as a failed assertion on a `nil` interface does in Go.
* Go `int64` values that the analyzed code only compares and divides are
  modelled as `Int`; the one place where unsigned 64-bit wrap-around matters
  (`memAfter.Alloc - memBefore.Alloc` on `uint64`) is modelled explicitly with
  `% 2^64` arithmetic on `Nat` plus a two's-complement reinterpretation.
* Go `float64` arithmetic in the efficiency-percentage computation is
  modelled with exact rationals (`Rat`).
* The collection, as seen through the filter, is a `List Bool`; each element
  is one matching document, recording whether `cursor.Decode` succeeds on it.
  An aggregation with `$skip s` and `$limit c` over the matching documents is
  `(matching.drop s).take c`.
-/

namespace MongoPerfLab

/-- A BSON-like dynamic value, the shape of Go's `interface{}` values that
`bson.M` documents hold in `analyzer.go` / `read_v4.go`.  `i64` is Go
`int64`, `i32` is Go `int32`, `dbl` is Go `float64` (payload modelled as a
rational; the analyzed code never inspects it), `doc` is
`map[string]interface{}`. -/
inductive BVal where
  | i64 : Int → BVal
  | i32 : Int → BVal
  | dbl : Rat → BVal
  | str : String → BVal
  | boolean : Bool → BVal
  | doc : List (String × BVal) → BVal
  | arr : List BVal → BVal
  | null : BVal

/-- Go map indexing `m["key"]`: the value when the key is present, `none`
(a `nil` interface) otherwise.  Go maps have unique keys, so first-match
lookup is faithful. -/
def lookupField : List (String × BVal) → String → Option BVal
  | [], _ => none
  | (k, v) :: rest, key => if k = key then some v else lookupField rest key

/-- Go type assertion `v.(map[string]interface{})`: succeeds exactly on a
document value. -/
def asDoc : Option BVal → Option (List (String × BVal))
  | some (BVal.doc d) => some d
  | _ => none

/-- Go type assertion `v.(int64)`: succeeds exactly on an `int64`-typed
value — an `int32` or `float64` of the same numeric magnitude fails it. -/
def asI64 : Option BVal → Option Int
  | some (BVal.i64 n) => some n
  | _ => none

/-- Go type assertion `v.(string)`. -/
def asStr : Option BVal → Option String
  | some (BVal.str s) => some s
  | _ => none

/-- Scan classification derived (not stored) from the winning plan's stage,
`analyzer.go` lines 169-207. -/
inductive ScanClassification where
  | FullScan
  | IndexScan
  | IndexFetch
  | Unknown
deriving DecidableEq

/-- The scan classification `PrintExplainResults` derives from an explain
document (`analyzer.go` lines 163-207): it enters the plan section only when
`queryPlanner`, `winningPlan` and a string-typed `stage` are all present, and
then branches on the stage string: `"COLLSCAN"` (full collection scan
warning), `"IXSCAN"` (index scan), `"FETCH"` (index fetch), any other string
gets no classification-specific output (Unknown). -/
def planClassification (explainResult : List (String × BVal)) : Option ScanClassification :=
  match asDoc (lookupField explainResult "queryPlanner") with
  | some queryPlanner =>
    match asDoc (lookupField queryPlanner "winningPlan") with
    | some winningPlan =>
      match asStr (lookupField winningPlan "stage") with
      | some stage =>
        if stage = "COLLSCAN" then some ScanClassification.FullScan
        else if stage = "IXSCAN" then some ScanClassification.IndexScan
        else if stage = "FETCH" then some ScanClassification.IndexFetch
        else some ScanClassification.Unknown
      | none => none
    | none => none
  | none => none

/-- Whether `PrintExplainResults` emits the slow-query warning
(`analyzer.go` lines 120, 137-143): requires the `executionStats`
sub-document, an `int64`-typed `executionTimeMillis`, and `execTime > 100`. -/
def slowQueryWarning (explainResult : List (String × BVal)) : Bool :=
  match asDoc (lookupField explainResult "executionStats") with
  | some executionStats =>
    match asI64 (lookupField executionStats "executionTimeMillis") with
    | some execTime => decide (execTime > 100)
    | none => false
  | none => false

/-- Whether `PrintExplainResults` emits the over-examination warning
(`analyzer.go` lines 147-158): requires `int64`-typed `totalDocsExamined`
and `nReturned` inside `executionStats`, with `nReturned > 0` and
`totalExamined > nReturned * 2`. -/
def overExamWarning (explainResult : List (String × BVal)) : Bool :=
  match asDoc (lookupField explainResult "executionStats") with
  | some executionStats =>
    match asI64 (lookupField executionStats "totalDocsExamined") with
    | some totalExamined =>
      match asI64 (lookupField executionStats "nReturned") with
      | some nReturned =>
        if nReturned > 0 then decide (totalExamined > nReturned * 2) else false
      | none => false
    | none => false
  | none => false

/-- `ExecutionStats` struct of `analyzer.go` lines 32-38.  All four numeric
fields are plain (non-pointer) Go `int64`, so the zero value `0` is the only
representation an absent field can take; the `ExecutionStages interface{}`
field is never written by the code under analysis and is omitted. -/
structure ExecutionStats where
  ExecutionTimeMillis : Int
  TotalDocsExamined : Int
  TotalKeysExamined : Int
  NReturned : Int
deriving DecidableEq

/-- Go's zero value `ExecutionStats{}`. -/
def zeroStats : ExecutionStats :=
  { ExecutionTimeMillis := 0, TotalDocsExamined := 0, TotalKeysExamined := 0, NReturned := 0 }

/-- The execution-stats parsing every strategy performs on the
`executionStats` sub-document of the explain result (`read_v4.go` lines
196-220, identical in `read_v1` / `read_v5` / `read_bad`): four sequential
`if ok := v.(int64)` blocks, each allocating `&ExecutionStats{}` (all fields
zero) if the pointer is still nil and then writing its one field.  The result
is `none` (nil pointer) exactly when no field is present as `int64`. -/
def parseExecutionStats (execStats : List (String × BVal)) : Option ExecutionStats :=
  let s0 : Option ExecutionStats := none
  let s1 : Option ExecutionStats :=
    match asI64 (lookupField execStats "executionTimeMillis") with
    | some execTime => some { zeroStats with ExecutionTimeMillis := execTime }
    | none => s0
  let s2 : Option ExecutionStats :=
    match asI64 (lookupField execStats "totalDocsExamined") with
    | some totalDocs => some { s1.getD zeroStats with TotalDocsExamined := totalDocs }
    | none => s1
  let s3 : Option ExecutionStats :=
    match asI64 (lookupField execStats "totalKeysExamined") with
    | some totalKeys => some { s2.getD zeroStats with TotalKeysExamined := totalKeys }
    | none => s2
  let s4 : Option ExecutionStats :=
    match asI64 (lookupField execStats "nReturned") with
    | some nReturned => some { s3.getD zeroStats with NReturned := nReturned }
    | none => s3
  s4

/-- The efficiency percentage `PrintMetrics` computes (`analyzer.go` lines
270-271): `float64(NReturned) / float64(TotalDocsExamined) * 100`, only when
`TotalDocsExamined > 0`; float64 arithmetic modelled exactly over `Rat`. -/
def efficiencyPercent (stats : ExecutionStats) : Option Rat :=
  if stats.TotalDocsExamined > 0 then
    some ((stats.NReturned : Rat) / (stats.TotalDocsExamined : Rat) * 100)
  else none

/-- Whether `PrintMetrics` emits the low-efficiency ("index optimization may
help") warning (`analyzer.go` lines 274-281): the efficiency percentage was
computed and is `< 50`. -/
def lowEfficiencyWarning (stats : ExecutionStats) : Bool :=
  match efficiencyPercent stats with
  | some efficiency => decide (efficiency < 50)
  | none => false

/-! ## Chunk coordinator (`read_v4.go`) -/

/-- Worker count fixed in `read_v4.go` line 69. -/
def numWorkers : Nat := 10

/-- Chunk size fixed in `read_v4.go` line 70 (`int64(100000)`, always
non-negative, modelled as `Nat`). -/
def chunkSize : Nat := 100000

/-- The skip offset assigned to a worker, `read_v4.go` line 108:
`skip := int64(workerID) * chunkSize`. -/
def workerSkip (workerID cs : Nat) : Nat := workerID * cs

/-- Membership of a record index in the chunk range `[skip, skip + cs)`
claimed by a worker (the records its `$skip`/`$limit` stages select). -/
def inChunkRange (workerID cs i : Nat) : Prop :=
  workerSkip workerID cs ≤ i ∧ i < workerSkip workerID cs + cs

/-- The action a dispatched worker takes (`read_v4.go` lines 108-142): if
`skip >= totalCount` it returns immediately without issuing the aggregation
(a no-op, not an error); otherwise it issues an aggregation whose `$skip` is
`skip` and whose `$limit` is the chunk size. -/
inductive WorkerAction where
  | idle
  | readRange (skip limit : Nat)
deriving DecidableEq

/-- Which action a worker with the given id takes against a collection with
`total` matching documents. -/
def workerAction (total workerID cs : Nat) : WorkerAction :=
  let skip := workerSkip workerID cs
  if skip ≥ total then WorkerAction.idle else WorkerAction.readRange skip cs

/-- The indices (positions among the filter-matching documents) a worker
actually reads: none when it is a no-op, otherwise the `$skip`/`$limit`
window over the matching sequence. -/
def workerReadIndices (total workerID cs : Nat) : List Nat :=
  if workerSkip workerID cs ≥ total then []
  else ((List.range total).drop (workerSkip workerID cs)).take cs

/-- How one worker's run ends: `idle` (skip past the end, returned before
issuing any read), `requestFailed` (`col.Aggregate` returned an error,
logged, worker returned), or `completed` with its local count. -/
inductive WorkerOutcome where
  | idle
  | requestFailed
  | completed (localCount : Nat)
deriving DecidableEq

/-- The decode loop of the `read_v4` worker (`read_v4.go` lines 150-160): for
each document the cursor yields, a failed `cursor.Decode` is logged and the
loop `continue`s (the record is skipped, `localCount` not incremented); a
successful decode increments `localCount`.  Each matching document is
represented by whether its decode succeeds. -/
def decodeLoopCount : List Bool → Nat
  | [] => 0
  | decodeOk :: rest =>
    if decodeOk then decodeLoopCount rest + 1 else decodeLoopCount rest

/-- One worker of the parallel strategy (`read_v4.go` lines 104-170).
`matching` is the sequence of filter-matching documents (each flagged by
decode success), `aggFails` says whether this worker's `col.Aggregate` call
errors.  Returns the outcome together with the amount the worker adds to the
shared total via `atomic.AddInt64` (workers that return early never reach the
add, contributing 0). -/
def workerRun (matching : List Bool) (workerID cs : Nat) (aggFails : Bool) :
    WorkerOutcome × Nat :=
  let skip := workerSkip workerID cs
  if skip ≥ matching.length then (WorkerOutcome.idle, 0)
  else if aggFails then (WorkerOutcome.requestFailed, 0)
  else
    let chunk := (matching.drop skip).take cs
    let localCount := decodeLoopCount chunk
    (WorkerOutcome.completed localCount, localCount)

/-- The per-worker contributions to the shared counter, in worker-id order. -/
def workerContributions (matching : List Bool) (nw cs : Nat) (aggFails : Nat → Bool) :
    List Nat :=
  (List.range nw).map (fun w => (workerRun matching w cs (aggFails w)).2)

/-- The shared total the coordinator reads after `wg.Wait()` (`read_v4.go`
lines 99, 167, 174): the sum of every worker's atomic contribution. -/
def parallelTotalRead (matching : List Bool) (nw cs : Nat) (aggFails : Nat → Bool) : Nat :=
  (workerContributions matching nw cs aggFails).sum

/-- The shared `totalRead` accumulator as the workers' `atomic.AddInt64`
calls land on it, in some completion order: starting from 0, each add folds
in one worker's local count. -/
def atomicAccumulate (adds : List Nat) : Nat :=
  adds.foldl (fun acc localCount => acc + localCount) 0

/-- Arithmetic form of the number of records one worker reads when every
matching document decodes: 0 for a no-op worker, otherwise the size of its
`$skip`/`$limit` window over `total` matching documents. -/
def workerReadCount (total workerID cs : Nat) : Nat :=
  if workerSkip workerID cs ≥ total then 0
  else min cs (total - workerSkip workerID cs)

/-! ## Single-threaded decode loops (`read_v1.go` lines 293-308, likewise
`read_v2` / `read_v3` / `read_v5`; `read_bad` reaches the same outcome
through `cursor.All`) -/

/-- The single-threaded strategies' read loop: a failed `cursor.Decode`
calls `panic(err)`, aborting the run (modelled as `Except`); otherwise every
record is counted. -/
def readLoopSingle : List Bool → Except Unit Nat
  | [] => Except.ok 0
  | decodeOk :: rest =>
    if decodeOk then
      match readLoopSingle rest with
      | Except.ok n => Except.ok (n + 1)
      | Except.error e => Except.error e
    else Except.error ()

/-- Modelled from the spec: the per-worker decode-failure policy as the claim
states it — "a worker that encounters a per-record decode error logs the
error and terminates early, contributing whatever partial count it had
accumulated up to the error".  Counts successfully decoded records only up to
(and excluding) the first decode failure, to be compared with the source's
`decodeLoopCount`, which skips the failing record and continues. -/
def decodeLoopCountStopAtError : List Bool → Nat
  | [] => 0
  | decodeOk :: rest =>
    if decodeOk then decodeLoopCountStopAtError rest + 1 else 0

/-! ## Memory delta (`read_v4.go` lines 176-178; `read_bad` lines 67-70;
identically in the other strategies) -/

/-- `2 ^ 63`. -/
def two63 : Nat := 9223372036854775808

/-- `2 ^ 64`. -/
def two64 : Nat := 18446744073709551616

/-- Go `uint64` subtraction `a - b` (wrap-around modulo `2^64`), for
`a, b < 2^64`. -/
def uint64Sub (a b : Nat) : Nat := (a + (two64 - b)) % two64

/-- Go conversion `int64(u)` of a `uint64` value: two's-complement
reinterpretation. -/
def int64OfUInt64 (u : Nat) : Int :=
  if u < two63 then (u : Int) else (u : Int) - (two64 : Int)

/-- `memoryUsed := int64(memAfter.Alloc - memBefore.Alloc)` — the reported
memory delta of every strategy, computed from the unsigned 64-bit `Alloc`
samples taken before and after the read. -/
def memoryUsed (beforeAlloc afterAlloc : Nat) : Int :=
  int64OfUInt64 (uint64Sub afterAlloc beforeAlloc)

/-! ## Helper lemmas -/

theorem asDoc_eq_some_iff {o : Option BVal} {d : List (String × BVal)} :
    asDoc o = some d ↔ o = some (BVal.doc d) := by
  cases o with
  | none => simp [asDoc]
  | some v => cases v <;> simp [asDoc]

theorem asI64_eq_some_iff {o : Option BVal} {n : Int} :
    asI64 o = some n ↔ o = some (BVal.i64 n) := by
  cases o with
  | none => simp [asI64]
  | some v => cases v <;> simp [asI64]

theorem asStr_eq_some_iff {o : Option BVal} {s : String} :
    asStr o = some s ↔ o = some (BVal.str s) := by
  cases o with
  | none => simp [asStr]
  | some v => cases v <;> simp [asStr]

theorem decodeLoopCount_eq_count (l : List Bool) : decodeLoopCount l = l.count true := by
  induction l with
  | nil => rfl
  | cons x xs ih =>
    cases x <;> simp [decodeLoopCount, ih, List.count_cons]

theorem decodeLoopCount_replicate_true (n : Nat) :
    decodeLoopCount (List.replicate n true) = n := by
  induction n with
  | zero => rfl
  | succ k ih => simp [List.replicate_succ, decodeLoopCount, ih]

theorem workerRun_replicate_true (t w cs : Nat) :
    (workerRun (List.replicate t true) w cs false).2 = workerReadCount t w cs := by
  unfold workerRun workerReadCount
  rcases le_or_lt t (workerSkip w cs) with h | h
  · simp [List.length_replicate, h]
  · simp [List.length_replicate, not_le.mpr h, le_of_lt h, List.drop_replicate,
      List.take_replicate, decodeLoopCount_replicate_true]

theorem parallelTotalRead_replicate (t nw cs : Nat) :
    parallelTotalRead (List.replicate t true) nw cs (fun _ => false) =
      ((List.range nw).map (fun w => workerReadCount t w cs)).sum := by
  unfold parallelTotalRead workerContributions
  simp only [workerRun_replicate_true]

theorem foldl_add_eq_add_sum (l : List Nat) :
    ∀ init : Nat, l.foldl (fun acc v => acc + v) init = init + l.sum := by
  induction l with
  | nil => simp
  | cons x xs ih => intro init; simp [List.foldl_cons, ih, List.sum_cons]; ring

theorem atomicAccumulate_eq_sum (l : List Nat) : atomicAccumulate l = l.sum := by
  unfold atomicAccumulate
  simpa using foldl_add_eq_add_sum l 0

theorem workerReadCount_le (t w cs : Nat) : workerReadCount t w cs ≤ cs := by
  unfold workerReadCount
  split
  · exact Nat.zero_le cs
  · exact Nat.min_le_left cs _

theorem asI64_eq_none_of_not_i64 {v : BVal} (h : ∀ e : Int, v ≠ BVal.i64 e) :
    asI64 (some v) = none := by
  cases v <;> first | rfl | exact absurd rfl (h _)

/-- Closed form of the four sequential `if ok := v.(int64)` parsing blocks:
`none` exactly when no field is `int64`-typed, otherwise a struct holding
each `int64`-typed field's value and `0` for the rest. -/
theorem parseExecutionStats_spec (execStats : List (String × BVal)) :
    parseExecutionStats execStats =
      if (asI64 (lookupField execStats "executionTimeMillis")).isNone ∧
         (asI64 (lookupField execStats "totalDocsExamined")).isNone ∧
         (asI64 (lookupField execStats "totalKeysExamined")).isNone ∧
         (asI64 (lookupField execStats "nReturned")).isNone
      then none
      else some
        { ExecutionTimeMillis := (asI64 (lookupField execStats "executionTimeMillis")).getD 0,
          TotalDocsExamined := (asI64 (lookupField execStats "totalDocsExamined")).getD 0,
          TotalKeysExamined := (asI64 (lookupField execStats "totalKeysExamined")).getD 0,
          NReturned := (asI64 (lookupField execStats "nReturned")).getD 0 } := by
  unfold parseExecutionStats
  rcases asI64 (lookupField execStats "executionTimeMillis") with _ | a <;>
  rcases asI64 (lookupField execStats "totalDocsExamined") with _ | b <;>
  rcases asI64 (lookupField execStats "totalKeysExamined") with _ | c <;>
  rcases asI64 (lookupField execStats "nReturned") with _ | d <;>
  simp [zeroStats]

theorem mem_workerReadIndices {total w cs i : Nat}
    (h : i ∈ workerReadIndices total w cs) :
    workerSkip w cs ≤ i ∧ i < workerSkip w cs + cs ∧ i < total := by
  unfold workerReadIndices at h
  split at h
  · simp at h
  · obtain ⟨j, hj, rfl⟩ := List.getElem_of_mem h
    have hj' := hj
    simp only [List.length_take, List.length_drop, List.length_range] at hj'
    have hjcs : j < cs := lt_of_lt_of_le hj' (Nat.min_le_left _ _)
    have hjrem : j < total - workerSkip w cs := lt_of_lt_of_le hj' (Nat.min_le_right _ _)
    rw [List.getElem_take, List.getElem_drop, List.getElem_range]
    refine ⟨Nat.le_add_right _ _, by omega, by omega⟩

/-! ## Claims -/

/-- C1: for every execution-plan document, the plan analyzer derives the scan
classification from the winning plan's declared stage name by exact string
match: a stage of "COLLSCAN" classifies as FullScan, "IXSCAN" as IndexScan,
"FETCH" as IndexFetch, and any other stage string as Unknown. -/
theorem C1_plan_classification
    (d queryPlanner winningPlan : List (String × BVal)) (stage : String)
    (h1 : lookupField d "queryPlanner" = some (BVal.doc queryPlanner))
    (h2 : lookupField queryPlanner "winningPlan" = some (BVal.doc winningPlan))
    (h3 : lookupField winningPlan "stage" = some (BVal.str stage)) :
    (planClassification d = some ScanClassification.FullScan ↔ stage = "COLLSCAN") ∧
    (planClassification d = some ScanClassification.IndexScan ↔ stage = "IXSCAN") ∧
    (planClassification d = some ScanClassification.IndexFetch ↔ stage = "FETCH") ∧
    (stage ≠ "COLLSCAN" → stage ≠ "IXSCAN" → stage ≠ "FETCH" →
      planClassification d = some ScanClassification.Unknown) := by
  have e1 := asDoc_eq_some_iff.mpr h1
  have e2 := asDoc_eq_some_iff.mpr h2
  have e3 := asStr_eq_some_iff.mpr h3
  unfold planClassification
  simp only [e1, e2, e3]
  by_cases hc : stage = "COLLSCAN"
  · subst hc; simp
  · by_cases hi : stage = "IXSCAN"
    · subst hi; simp
    · by_cases hf : stage = "FETCH"
      · subst hf; simp
      · simp [hc, hi, hf]

/-- Witness for C1: a concrete explain document whose winning-plan stage is
"COLLSCAN" classifies as FullScan. -/
theorem C1_plan_classification_witness :
    planClassification
      [("queryPlanner",
        BVal.doc [("winningPlan", BVal.doc [("stage", BVal.str "COLLSCAN")])])] =
      some ScanClassification.FullScan :=
  (C1_plan_classification
    [("queryPlanner",
      BVal.doc [("winningPlan", BVal.doc [("stage", BVal.str "COLLSCAN")])])]
    [("winningPlan", BVal.doc [("stage", BVal.str "COLLSCAN")])]
    [("stage", BVal.str "COLLSCAN")] "COLLSCAN" rfl rfl rfl).1.mpr rfl

/-- C2: the analyzer emits the latency warning exactly when the execution
time exceeds 100 ms; it computes the efficiency ratio
`nReturned / totalDocsExamined` as a percentage exactly when
`totalDocsExamined > 0`, emitting the low-efficiency warning exactly when
that ratio is below 50%; and, independently of the ratio, it emits the
over-examination warning exactly when `nReturned > 0` and
`totalDocsExamined > nReturned * 2`. -/
theorem C2_warning_thresholds :
    (∀ (d executionStats : List (String × BVal)) (execTime : Int),
      lookupField d "executionStats" = some (BVal.doc executionStats) →
      lookupField executionStats "executionTimeMillis" = some (BVal.i64 execTime) →
      (slowQueryWarning d = true ↔ execTime > 100)) ∧
    (∀ (d executionStats : List (String × BVal)) (totalExamined nReturned : Int),
      lookupField d "executionStats" = some (BVal.doc executionStats) →
      lookupField executionStats "totalDocsExamined" = some (BVal.i64 totalExamined) →
      lookupField executionStats "nReturned" = some (BVal.i64 nReturned) →
      (overExamWarning d = true ↔ nReturned > 0 ∧ totalExamined > nReturned * 2)) ∧
    (∀ stats : ExecutionStats, stats.TotalDocsExamined > 0 →
      efficiencyPercent stats =
        some ((stats.NReturned : Rat) / (stats.TotalDocsExamined : Rat) * 100) ∧
      (lowEfficiencyWarning stats = true ↔
        stats.NReturned * 2 < stats.TotalDocsExamined)) ∧
    (∀ stats : ExecutionStats, ¬ stats.TotalDocsExamined > 0 →
      efficiencyPercent stats = none) := by
  refine ⟨?_, ?_, ?_, ?_⟩
  · intro d executionStats execTime h1 h2
    have e1 := asDoc_eq_some_iff.mpr h1
    have e2 := asI64_eq_some_iff.mpr h2
    unfold slowQueryWarning
    simp only [e1, e2]
    simp
  · intro d executionStats totalExamined nReturned h1 h2 h3
    have e1 := asDoc_eq_some_iff.mpr h1
    have e2 := asI64_eq_some_iff.mpr h2
    have e3 := asI64_eq_some_iff.mpr h3
    unfold overExamWarning
    simp only [e1, e2, e3]
    by_cases hn : nReturned > 0
    · simp [hn]
    · simp [hn]
  · intro stats h
    have ht : (0 : Rat) < (stats.TotalDocsExamined : Rat) := by exact_mod_cast h
    have epos : efficiencyPercent stats =
        some ((stats.NReturned : Rat) / (stats.TotalDocsExamined : Rat) * 100) := by
      unfold efficiencyPercent
      rw [if_pos h]
    refine ⟨epos, ?_⟩
    unfold lowEfficiencyWarning
    rw [epos]
    have key : ((stats.NReturned : Rat) / (stats.TotalDocsExamined : Rat) * 100 < 50) ↔
        stats.NReturned * 2 < stats.TotalDocsExamined := by
      rw [div_mul_eq_mul_div, div_lt_iff₀ ht]
      constructor
      · intro hlt
        have hi : (stats.NReturned * 100 : Int) < 50 * stats.TotalDocsExamined := by
          exact_mod_cast hlt
        omega
      · intro hlt
        have hi : (stats.NReturned * 100 : Int) < 50 * stats.TotalDocsExamined := by omega
        exact_mod_cast hi
    simp [key]
  · intro stats h
    unfold efficiencyPercent
    rw [if_neg h]

/-- Witness for C2: the spec's own test vectors — 150 ms raises the
slow-query warning, `totalDocsExamined = 100` with `nReturned = 10` raises
both the over-examination warning (in the explain path) and the
low-efficiency warning (in the metrics path). -/
theorem C2_warning_thresholds_witness :
    slowQueryWarning
      [("executionStats", BVal.doc [("executionTimeMillis", BVal.i64 150)])] = true ∧
    overExamWarning
      [("executionStats",
        BVal.doc [("totalDocsExamined", BVal.i64 100), ("nReturned", BVal.i64 10)])] = true ∧
    lowEfficiencyWarning
      { ExecutionTimeMillis := 0, TotalDocsExamined := 100,
        TotalKeysExamined := 0, NReturned := 10 } = true :=
  ⟨(C2_warning_thresholds.1
      [("executionStats", BVal.doc [("executionTimeMillis", BVal.i64 150)])]
      [("executionTimeMillis", BVal.i64 150)] 150 rfl rfl).mpr (by decide),
   (C2_warning_thresholds.2.1
      [("executionStats",
        BVal.doc [("totalDocsExamined", BVal.i64 100), ("nReturned", BVal.i64 10)])]
      [("totalDocsExamined", BVal.i64 100), ("nReturned", BVal.i64 10)]
      100 10 rfl rfl rfl).mpr (by decide),
   ((C2_warning_thresholds.2.2.1
      { ExecutionTimeMillis := 0, TotalDocsExamined := 100,
        TotalKeysExamined := 0, NReturned := 10 } (by decide)).2).mpr (by decide)⟩

/-- C3: each worker with identifier `workerID` is assigned
`skip = workerID * chunkSize`, so for a positive chunk size the skip values
across workers are strictly increasing and the `[skip, skip + limit)` ranges
are non-overlapping; every worker whose skip is at least the total count is
dispatched but returns immediately without issuing a read (outcome `idle`
with contribution 0, regardless of whether its aggregation request would
have failed — a no-op, not an error). -/
theorem C3_chunk_partitioning (cs : Nat) (hcs : 0 < cs) (w1 w2 : Nat) (h12 : w1 < w2) :
    workerSkip w1 cs < workerSkip w2 cs ∧
    (∀ i : Nat, ¬ (inChunkRange w1 cs i ∧ inChunkRange w2 cs i)) ∧
    (∀ (matching : List Bool) (w : Nat) (aggFails : Bool),
      matching.length ≤ workerSkip w cs →
      workerRun matching w cs aggFails = (WorkerOutcome.idle, 0) ∧
      workerAction matching.length w cs = WorkerAction.idle) := by
  refine ⟨?_, ?_, ?_⟩
  · exact (Nat.mul_lt_mul_right hcs).mpr h12
  · intro i hi
    obtain ⟨⟨ha1, ha2⟩, ⟨hb1, hb2⟩⟩ := hi
    have hmul : (w1 + 1) * cs ≤ w2 * cs :=
      Nat.mul_le_mul_right cs (Nat.succ_le_of_lt h12)
    rw [Nat.succ_mul] at hmul
    unfold workerSkip at ha1 ha2 hb1 hb2
    omega
  · intro matching w aggFails h
    constructor
    · unfold workerRun
      rw [if_pos h]
    · unfold workerAction
      rw [if_pos h]

/-- Witness for C3: with the source's chunk size, worker 0's skip precedes
worker 1's, and a worker whose skip exceeds the total is an idle no-op. -/
theorem C3_chunk_partitioning_witness :
    workerSkip 0 100000 < workerSkip 1 100000 ∧
    workerRun [true] 5 1 true = (WorkerOutcome.idle, 0) :=
  ⟨(C3_chunk_partitioning 100000 (by decide) 0 1 (by decide)).1,
   ((C3_chunk_partitioning 1 (by decide) 0 1 (by decide)).2.2 [true] 5 true
     (by decide)).1⟩

/-- C4: whenever `numWorkers * chunkSize` is smaller than the count of
matching documents, the trailing records beyond `[0, numWorkers * chunkSize)`
are never read by any worker, and the aggregated total read is at most
`numWorkers * chunkSize`, hence strictly less than the total. -/
theorem C4_partitioning_gap (total nw cs : Nat) (h : nw * cs < total) :
    (∀ w < nw, ∀ i ∈ workerReadIndices total w cs, i < nw * cs) ∧
    parallelTotalRead (List.replicate total true) nw cs (fun _ => false) ≤ nw * cs ∧
    parallelTotalRead (List.replicate total true) nw cs (fun _ => false) < total := by
  have hle : parallelTotalRead (List.replicate total true) nw cs (fun _ => false) ≤ nw * cs := by
    rw [parallelTotalRead_replicate]
    have hb : ∀ x ∈ (List.range nw).map (fun w => workerReadCount total w cs), x ≤ cs := by
      intro x hx
      obtain ⟨w, hw, rfl⟩ := List.mem_map.mp hx
      exact workerReadCount_le total w cs
    have hsum := List.sum_le_card_nsmul _ cs hb
    simpa [List.length_map, List.length_range, smul_eq_mul] using hsum
  refine ⟨?_, hle, lt_of_le_of_lt hle h⟩
  intro w hw i hi
  obtain ⟨hs1, hs2, hs3⟩ := mem_workerReadIndices hi
  have hmul : (w + 1) * cs ≤ nw * cs := Nat.mul_le_mul_right cs (Nat.succ_le_of_lt hw)
  rw [Nat.succ_mul] at hmul
  unfold workerSkip at hs2
  omega

/-- Witness for C4: 2 workers of chunk size 1 over 3 matching records read
at most 2 records, strictly fewer than the total. -/
theorem C4_partitioning_gap_witness :
    parallelTotalRead (List.replicate 3 true) 2 1 (fun _ => false) ≤ 2 ∧
    parallelTotalRead (List.replicate 3 true) 2 1 (fun _ => false) < 3 :=
  ⟨(C4_partitioning_gap 3 2 1 (by decide)).2.1,
   (C4_partitioning_gap 3 2 1 (by decide)).2.2⟩

/-- Counterexample for C5: in the concrete scenario of the claim —
250,000 matching records, the source's 10 workers of chunk size 100,000 —
the aggregated read across all workers is exactly 250,000, i.e. EQUAL to the
total, contradicting the claim's final conjunct that the expected total read
is not equal to the total.  (Workers 0-2 together cover all 250,000 records:
10 × 100,000 ≥ 250,000, so no partitioning gap arises here.) -/
theorem C5_total_read_counterexample :
    parallelTotalRead (List.replicate 250000 true) numWorkers chunkSize
      (fun _ => false) = 250000 := by
  rw [parallelTotalRead_replicate]
  decide

/-- C5 (amended): in the concrete scenario — total = 250,000 matching
records, numWorkers = 10, chunkSize = 100,000 — workers 0 and 1 each claim
ranges covering 100,000 records (skip=0,limit=100000 and
skip=100000,limit=100000), worker 2 partially covers at skip=200000 (reading
the remaining 50,000), workers 3-9 are no-ops, and the total read across all
workers EQUALS the total of 250,000 (the partitioning gap would require
`numWorkers * chunkSize < total`, which this scenario does not satisfy). -/
theorem C5_concrete_scenario :
    workerAction 250000 0 chunkSize = WorkerAction.readRange 0 100000 ∧
    workerAction 250000 1 chunkSize = WorkerAction.readRange 100000 100000 ∧
    workerAction 250000 2 chunkSize = WorkerAction.readRange 200000 100000 ∧
    (workerAction 250000 3 chunkSize = WorkerAction.idle ∧
     workerAction 250000 4 chunkSize = WorkerAction.idle ∧
     workerAction 250000 5 chunkSize = WorkerAction.idle ∧
     workerAction 250000 6 chunkSize = WorkerAction.idle ∧
     workerAction 250000 7 chunkSize = WorkerAction.idle ∧
     workerAction 250000 8 chunkSize = WorkerAction.idle ∧
     workerAction 250000 9 chunkSize = WorkerAction.idle) ∧
    workerReadCount 250000 0 chunkSize = 100000 ∧
    workerReadCount 250000 1 chunkSize = 100000 ∧
    workerReadCount 250000 2 chunkSize = 50000 ∧
    parallelTotalRead (List.replicate 250000 true) numWorkers chunkSize
      (fun _ => false) = 250000 := by
  refine ⟨by decide, by decide, by decide,
    ⟨by decide, by decide, by decide, by decide, by decide, by decide, by decide⟩,
    by decide, by decide, by decide, ?_⟩
  rw [parallelTotalRead_replicate]
  decide

/-- C6: each dispatched worker adds its local count to the single shared
total through an atomic add without reading any other worker's partial state
(a worker's contribution is a function of its own chunk parameters alone),
and after the coordinator's barrier the value it reads equals the sum of all
workers' local counts — for every completion order of the atomic adds. -/
theorem C6_atomic_aggregation (matching : List Bool) (nw cs : Nat)
    (aggFails : Nat → Bool) (sched : List Nat)
    (hperm : sched.Perm (workerContributions matching nw cs aggFails)) :
    atomicAccumulate sched = parallelTotalRead matching nw cs aggFails ∧
    parallelTotalRead matching nw cs aggFails =
      ((List.range nw).map (fun w => (workerRun matching w cs (aggFails w)).2)).sum := by
  constructor
  · rw [atomicAccumulate_eq_sum, hperm.sum_eq]
    rfl
  · rfl

/-- Witness for C6: a two-worker run whose adds land in the reverse of
dispatch order still yields the sum of the local counts. -/
theorem C6_atomic_aggregation_witness :
    atomicAccumulate [0, 2] =
      parallelTotalRead [true, true, false] 2 2 (fun _ => false) :=
  (C6_atomic_aggregation [true, true, false] 2 2 (fun _ => false) [0, 2]
    (by decide)).1

/-- Counterexample for C7: the claim says a worker hitting a per-record
decode error "terminates early, contributing whatever partial count it had
accumulated up to the error".  On a chunk whose first record fails to decode
and whose second decodes fine, early termination would contribute 0
(`decodeLoopCountStopAtError`), but the `read_v4` worker logs the error,
`continue`s past the bad record, and contributes 1. -/
theorem C7_decode_error_counterexample :
    (workerRun [false, true] 0 2 false).2 = 1 ∧
    decodeLoopCountStopAtError [false, true] = 0 := by
  decide

/-- C7 (amended): in the parallel strategy, a worker that encounters a
request error logs it and returns early, contributing nothing; a worker that
encounters a per-record decode error logs it, skips that record, and
continues iterating, contributing the count of the successfully decoded
records of its chunk; neither failure aborts sibling workers (each worker's
contribution depends only on its own inputs) nor fails the overall run (the
aggregated total is defined for every input).  In every single-threaded
strategy, a per-record decode error is fatal and aborts that run. -/
theorem C7_worker_failure_policy :
    (∀ (matching : List Bool) (w cs : Nat), workerSkip w cs < matching.length →
      workerRun matching w cs false =
        (WorkerOutcome.completed (((matching.drop (workerSkip w cs)).take cs).count true),
         ((matching.drop (workerSkip w cs)).take cs).count true)) ∧
    (∀ (matching : List Bool) (w cs : Nat), workerSkip w cs < matching.length →
      workerRun matching w cs true = (WorkerOutcome.requestFailed, 0)) ∧
    (∀ (matching : List Bool) (cs : Nat) (f g : Nat → Bool) (w : Nat),
      f w = g w →
      (workerRun matching w cs (f w)).2 = (workerRun matching w cs (g w)).2) ∧
    (∀ records : List Bool, false ∈ records → readLoopSingle records = Except.error ()) ∧
    (∀ records : List Bool, false ∉ records →
      readLoopSingle records = Except.ok records.length) := by
  refine ⟨?_, ?_, ?_, ?_, ?_⟩
  · intro matching w cs h
    unfold workerRun
    rw [if_neg (not_le.mpr h)]
    simp [decodeLoopCount_eq_count]
  · intro matching w cs h
    unfold workerRun
    rw [if_neg (not_le.mpr h)]
    simp
  · intro matching cs f g w hfg
    rw [hfg]
  · intro records hmem
    induction records with
    | nil => simp at hmem
    | cons x xs ih =>
      cases x with
      | false => rfl
      | true =>
        simp only [List.mem_cons] at hmem
        rcases hmem with h | h
        · exact absurd h.symm (by simp)
        · unfold readLoopSingle
          rw [ih h]
          simp
  · intro records hmem
    induction records with
    | nil => rfl
    | cons x xs ih =>
      simp only [List.mem_cons, not_or] at hmem
      obtain ⟨hx, hxs⟩ := hmem
      cases x with
      | false => exact absurd rfl hx
      | true =>
        unfold readLoopSingle
        rw [ih hxs]
        simp

/-- Witness for C7 (amended): a worker whose chunk starts with a bad record
still contributes the 2 good records after it; an aggregation failure makes
the worker contribute 0; a single-threaded run over the same records
aborts. -/
theorem C7_worker_failure_policy_witness :
    workerRun [false, true, true] 0 3 false = (WorkerOutcome.completed 2, 2) ∧
    workerRun [false, true, true] 0 3 true = (WorkerOutcome.requestFailed, 0) ∧
    readLoopSingle [false, true, true] = Except.error () :=
  ⟨C7_worker_failure_policy.1 [false, true, true] 0 3 (by decide),
   C7_worker_failure_policy.2.1 [false, true, true] 0 3 (by decide),
   C7_worker_failure_policy.2.2.2.1 [false, true, true] (by decide)⟩

/-- Counterexample for C8: the claim says the parsed `ExecutionStats`
"records an absent field as unset, not as the value zero".  The Go struct's
fields are plain (non-pointer) `int64`, so on a stats document carrying only
`totalDocsExamined`, the absent `executionTimeMillis` (and the other absent
fields) are recorded as the value 0 — indistinguishable from a genuine
measurement of zero. -/
theorem C8_absent_field_counterexample :
    parseExecutionStats [("totalDocsExamined", BVal.i64 500)] =
      some { ExecutionTimeMillis := 0, TotalDocsExamined := 500,
             TotalKeysExamined := 0, NReturned := 0 } := by
  rfl

/-- C8 (amended): the plan analyzer never raises on any execution-plan
document (every analysis function here is total); absent or non-`int64`
fields are skipped for warning purposes — no slow-query warning without an
`int64` `executionTimeMillis`, no over-examination warning without both
`int64` fields, none of either without the `executionStats` sub-document;
the parsed `ExecutionStats` is nil (none) exactly when no stats field is
`int64`-typed, and an individually absent field of a non-nil result is
stored as the value 0, not as an unset marker. -/
theorem C8_absent_fields :
    (∀ (d stats : List (String × BVal)),
      lookupField d "executionStats" = some (BVal.doc stats) →
      asI64 (lookupField stats "executionTimeMillis") = none →
      slowQueryWarning d = false) ∧
    (∀ (d stats : List (String × BVal)),
      lookupField d "executionStats" = some (BVal.doc stats) →
      (asI64 (lookupField stats "totalDocsExamined") = none ∨
       asI64 (lookupField stats "nReturned") = none) →
      overExamWarning d = false) ∧
    (∀ d : List (String × BVal), lookupField d "executionStats" = none →
      slowQueryWarning d = false ∧ overExamWarning d = false) ∧
    (∀ stats : List (String × BVal), parseExecutionStats stats = none ↔
      (asI64 (lookupField stats "executionTimeMillis") = none ∧
       asI64 (lookupField stats "totalDocsExamined") = none ∧
       asI64 (lookupField stats "totalKeysExamined") = none ∧
       asI64 (lookupField stats "nReturned") = none)) ∧
    (∀ (stats : List (String × BVal)) (s : ExecutionStats),
      parseExecutionStats stats = some s →
      (asI64 (lookupField stats "executionTimeMillis") = none →
        s.ExecutionTimeMillis = 0) ∧
      (asI64 (lookupField stats "nReturned") = none → s.NReturned = 0)) := by
  refine ⟨?_, ?_, ?_, ?_, ?_⟩
  · intro d stats h1 h2
    have e1 := asDoc_eq_some_iff.mpr h1
    unfold slowQueryWarning
    simp [e1, h2]
  · intro d stats h1 h2
    have e1 := asDoc_eq_some_iff.mpr h1
    unfold overExamWarning
    rcases h2 with h | h
    · simp [e1, h]
    · cases htd : asI64 (lookupField stats "totalDocsExamined") with
      | none => simp [e1, htd]
      | some t => simp [e1, htd, h]
  · intro d h
    have e1 : asDoc (lookupField d "executionStats") = none := by
      rw [h]; rfl
    unfold slowQueryWarning overExamWarning
    simp [e1]
  · intro stats
    rw [parseExecutionStats_spec]
    constructor
    · intro hp
      split at hp
      · rename_i hcond
        simpa [Option.isNone_iff_eq_none] using hcond
      · exact absurd hp (by simp)
    · rintro ⟨h1, h2, h3, h4⟩
      rw [if_pos (by simp [h1, h2, h3, h4])]
  · intro stats s hp
    rw [parseExecutionStats_spec] at hp
    split at hp
    · exact absurd hp (by simp)
    · obtain rfl := Option.some.inj hp
      exact ⟨fun h => by simp [h], fun h => by simp [h]⟩

/-- Witness for C8 (amended): concrete instances — a stats document without
an `int64` `executionTimeMillis` raises no slow-query warning; an empty
stats document parses to nil; a document carrying only `totalDocsExamined`
parses with `ExecutionTimeMillis` recorded as 0. -/
theorem C8_absent_fields_witness :
    slowQueryWarning [("executionStats", BVal.doc [])] = false ∧
    parseExecutionStats [] = none ∧
    ∃ s : ExecutionStats,
      parseExecutionStats [("totalDocsExamined", BVal.i64 500)] = some s ∧
      s.ExecutionTimeMillis = 0 :=
  ⟨C8_absent_fields.1 [("executionStats", BVal.doc [])] [] rfl rfl,
   (C8_absent_fields.2.2.2.1 []).mpr ⟨rfl, rfl, rfl, rfl⟩,
   ⟨{ ExecutionTimeMillis := 0, TotalDocsExamined := 500,
      TotalKeysExamined := 0, NReturned := 0 },
    rfl,
    (C8_absent_fields.2.2.2.2 [("totalDocsExamined", BVal.i64 500)]
      { ExecutionTimeMillis := 0, TotalDocsExamined := 500,
        TotalKeysExamined := 0, NReturned := 0 } rfl).1 rfl⟩⟩

/-- C9: the reported memory delta is `int64(after - before)` over the
unsigned 64-bit `Alloc` samples; whenever the true difference fits a signed
64-bit value (always, for real allocation counters), the reported delta
equals `after - before` exactly, and in particular a smaller after-sample
(e.g. after a garbage-collection pass) yields a negative number as-is, never
clamped to zero. -/
theorem C9_memory_delta (beforeAlloc afterAlloc : Nat)
    (hb : beforeAlloc < two64) (_ha : afterAlloc < two64)
    (hlo : -(two63 : Int) ≤ (afterAlloc : Int) - (beforeAlloc : Int))
    (hhi : (afterAlloc : Int) - (beforeAlloc : Int) < (two63 : Int)) :
    memoryUsed beforeAlloc afterAlloc = (afterAlloc : Int) - (beforeAlloc : Int) ∧
    (afterAlloc < beforeAlloc → memoryUsed beforeAlloc afterAlloc < 0) := by
  have key : memoryUsed beforeAlloc afterAlloc =
      (afterAlloc : Int) - (beforeAlloc : Int) := by
    unfold two64 at hb
    unfold two63 at hlo hhi
    unfold memoryUsed uint64Sub int64OfUInt64 two63 two64
    split <;> omega
  refine ⟨key, fun h => ?_⟩
  rw [key]
  omega

/-- Witness for C9: samples 1000 before and 400 after report −600, a
negative delta, not 0. -/
theorem C9_memory_delta_witness :
    memoryUsed 1000 400 = -600 ∧ memoryUsed 1000 400 < 0 := by
  have h := C9_memory_delta 1000 400 (by decide) (by decide) (by decide) (by decide)
  exact ⟨h.1.trans (by decide), h.2 (by decide)⟩

/-- C10: the analyzer's warnings and stats extraction are gated on the
dynamic type being a 64-bit signed integer: the slow-query warning fires
exactly when `executionTimeMillis` is `int64`-typed and exceeds 100, the
over-examination warning exactly when both `totalDocsExamined` and
`nReturned` are `int64`-typed with `nReturned > 0` and
`totalDocsExamined > nReturned * 2`, and a stats field is copied into
`ExecutionStats` only when `int64`-typed — a present field of another
numeric type (`int32`, `float64`) is silently ignored and never triggers a
warning. -/
theorem C10_int64_typing :
    (∀ d : List (String × BVal), slowQueryWarning d = true ↔
      ∃ (stats : List (String × BVal)) (e : Int),
        lookupField d "executionStats" = some (BVal.doc stats) ∧
        lookupField stats "executionTimeMillis" = some (BVal.i64 e) ∧ 100 < e) ∧
    (∀ d : List (String × BVal), overExamWarning d = true ↔
      ∃ (stats : List (String × BVal)) (t n : Int),
        lookupField d "executionStats" = some (BVal.doc stats) ∧
        lookupField stats "totalDocsExamined" = some (BVal.i64 t) ∧
        lookupField stats "nReturned" = some (BVal.i64 n) ∧
        0 < n ∧ n * 2 < t) ∧
    (∀ (stats : List (String × BVal)) (v : BVal) (s : ExecutionStats),
      lookupField stats "executionTimeMillis" = some v →
      (∀ e : Int, v ≠ BVal.i64 e) →
      parseExecutionStats stats = some s → s.ExecutionTimeMillis = 0) ∧
    slowQueryWarning
      [("executionStats", BVal.doc [("executionTimeMillis", BVal.i32 500)])] = false ∧
    slowQueryWarning
      [("executionStats", BVal.doc [("executionTimeMillis", BVal.dbl 500)])] = false ∧
    overExamWarning
      [("executionStats",
        BVal.doc [("totalDocsExamined", BVal.i64 1000), ("nReturned", BVal.i32 1)])] =
      false := by
  refine ⟨?_, ?_, ?_, by rfl, by rfl, by rfl⟩
  · intro d
    constructor
    · intro hw
      unfold slowQueryWarning at hw
      split at hw
      · rename_i stats hd
        split at hw
        · rename_i e he
          simp only [decide_eq_true_eq] at hw
          exact ⟨stats, e, asDoc_eq_some_iff.mp hd, asI64_eq_some_iff.mp he, hw⟩
        · exact absurd hw (by simp)
      · exact absurd hw (by simp)
    · rintro ⟨stats, e, h1, h2, h3⟩
      unfold slowQueryWarning
      simp only [asDoc_eq_some_iff.mpr h1, asI64_eq_some_iff.mpr h2]
      simpa using h3
  · intro d
    constructor
    · intro hw
      unfold overExamWarning at hw
      split at hw
      · rename_i stats hd
        split at hw
        · rename_i t ht
          split at hw
          · rename_i n hn
            by_cases hpos : n > 0
            · rw [if_pos hpos] at hw
              simp only [decide_eq_true_eq] at hw
              exact ⟨stats, t, n, asDoc_eq_some_iff.mp hd,
                asI64_eq_some_iff.mp ht, asI64_eq_some_iff.mp hn, hpos, hw⟩
            · rw [if_neg hpos] at hw
              exact absurd hw (by simp)
          · exact absurd hw (by simp)
        · exact absurd hw (by simp)
      · exact absurd hw (by simp)
    · rintro ⟨stats, t, n, h1, h2, h3, h4, h5⟩
      unfold overExamWarning
      simp only [asDoc_eq_some_iff.mpr h1, asI64_eq_some_iff.mpr h2,
        asI64_eq_some_iff.mpr h3]
      rw [if_pos h4]
      simpa using h5
  · intro stats v s hv hne hp
    have he : asI64 (lookupField stats "executionTimeMillis") = none := by
      rw [hv]; exact asI64_eq_none_of_not_i64 hne
    rw [parseExecutionStats_spec] at hp
    split at hp
    · exact absurd hp (by simp)
    · obtain rfl := Option.some.inj hp
      simp [he]

/-- Witness for C10: an `int64`-typed `executionTimeMillis` of 500 does
trigger the slow-query warning (contrast with the `int32` / `float64`
variants of the same magnitude, which do not). -/
theorem C10_int64_typing_witness :
    slowQueryWarning
      [("executionStats", BVal.doc [("executionTimeMillis", BVal.i64 500)])] = true :=
  (C10_int64_typing.1 _).mpr
    ⟨[("executionTimeMillis", BVal.i64 500)], 500, rfl, rfl, by decide⟩

end MongoPerfLab
